import Mathlib

/-!
Verification of the widgets library (terminal UI components).

Each widget is embedded shallowly: the TypeScript model records become Lean
structures, the pure transition functions become Lean functions, and JS
numbers are represented as `Int` (all arithmetic involved is integral).
Bounded `while` loops of the source are rendered as fuel recursion whose fuel
equals the loop's own iteration bound.
-/

namespace Widgets

namespace WList

/-- List item: display text, optional description, disabled flag.
The optional `disabled` field of the source is falsy when absent, so a plain
`Bool` (default `false`) is the faithful reading. -/
structure ListItem where
  title : String
  description : Option String
  disabled : Bool
deriving DecidableEq

/-- List model, mirroring `ListModel` of `list.ts`. -/
structure ListModel where
  items : List ListItem
  selected : Int
  height : Int
  offset : Int
  cursor : String
  uncursor : String
  showDescriptions : Bool
  wrap : Bool
deriving DecidableEq

/-- List options: all fields optional, mirroring `ListOptions`. -/
structure ListOptions where
  items : Option (List ListItem) := none
  selected : Option Int := none
  height : Option Int := none
  cursor : Option String := none
  uncursor : Option String := none
  showDescriptions : Option Bool := none
  wrap : Option Bool := none

/-- Mirrors `createList` of `list.ts`. -/
def createList (options : ListOptions) : ListModel :=
  let items := options.items.getD []
  let selected := options.selected.getD 0
  let height := options.height.getD 0
  { items := items
    selected := max 0 (min selected ((items.length : Int) - 1))
    height := height
    offset := 0
    cursor := options.cursor.getD "> "
    uncursor := options.uncursor.getD "  "
    showDescriptions := options.showDescriptions.getD false
    wrap := options.wrap.getD true }

/-- Mirrors `setItems` of `list.ts`. -/
def setItems (model : ListModel) (items : List ListItem) : ListModel :=
  { model with
    items := items
    selected := min model.selected (max 0 ((items.length : Int) - 1))
    offset := 0 }

/-- JS indexing `items[i]`: `none` when out of range. -/
def itemAt (items : List ListItem) (i : Int) : Option ListItem :=
  if 0 ≤ i then items[i.toNat]? else none

/-- Truthiness of `items[i]?.disabled`: false when the index is out of range. -/
def disabledAt (items : List ListItem) (i : Int) : Bool :=
  match itemAt items i with
  | some it => it.disabled
  | none => false

/-- Mirrors `updateOffset` of `list.ts` (scroll-window recomputation). -/
def updateOffset (model : ListModel) : ListModel :=
  if model.height = 0 then { model with offset := 0 }
  else
    let newOffset :=
      if model.selected ≥ model.offset + model.height then
        model.selected - model.height + 1
      else model.offset
    let newOffset :=
      if model.selected < model.offset then model.selected else newOffset
    { model with offset := newOffset }

/-- The `if (newSelected < 0) newSelected = wrap ? len - 1 : 0` adjustment of
`moveUp`. -/
def wrapUp (len : Int) (wrap : Bool) (s : Int) : Int :=
  if s < 0 then (if wrap then len - 1 else 0) else s

/-- The disabled-skipping loop of `moveUp`, as fuel recursion; the source loop
is bounded by `attempts < items.length`, so the fuel is `items.length`. -/
def skipUp (items : List ListItem) (wrap : Bool) : Nat → Int → Int
  | 0, s => s
  | fuel + 1, s =>
    if disabledAt items s then
      skipUp items wrap fuel (wrapUp (items.length : Int) wrap (s - 1))
    else s

/-- Mirrors `moveUp` of `list.ts`. -/
def moveUp (model : ListModel) : ListModel :=
  if model.items.length = 0 then model
  else
    let s0 := wrapUp (model.items.length : Int) model.wrap (model.selected - 1)
    let s := skipUp model.items model.wrap model.items.length s0
    updateOffset { model with selected := s }

/-- The `if (newSelected >= len) newSelected = wrap ? 0 : len - 1` adjustment
of `moveDown`. -/
def wrapDown (len : Int) (wrap : Bool) (s : Int) : Int :=
  if s ≥ len then (if wrap then 0 else len - 1) else s

/-- The disabled-skipping loop of `moveDown`, fuel = `items.length`. -/
def skipDown (items : List ListItem) (wrap : Bool) : Nat → Int → Int
  | 0, s => s
  | fuel + 1, s =>
    if disabledAt items s then
      skipDown items wrap fuel (wrapDown (items.length : Int) wrap (s + 1))
    else s

/-- Mirrors `moveDown` of `list.ts`. -/
def moveDown (model : ListModel) : ListModel :=
  if model.items.length = 0 then model
  else
    let s0 := wrapDown (model.items.length : Int) model.wrap (model.selected + 1)
    let s := skipDown model.items model.wrap model.items.length s0
    updateOffset { model with selected := s }

/-- The `while (items[s]?.disabled && s < len) s++` loop of `moveToStart`;
it increments at most `items.length` times (from 0), so fuel = `items.length`
reproduces it exactly. -/
def seekForward (items : List ListItem) : Nat → Int → Int
  | 0, s => s
  | fuel + 1, s =>
    if disabledAt items s ∧ s < (items.length : Int) then
      seekForward items fuel (s + 1)
    else s

/-- Mirrors `moveToStart` of `list.ts`. -/
def moveToStart (model : ListModel) : ListModel :=
  if model.items.length = 0 then model
  else
    updateOffset { model with selected := seekForward model.items model.items.length 0 }

/-- The `while (items[s]?.disabled && s >= 0) s--` loop of `moveToEnd`;
it decrements at most `items.length` times (from `length - 1`). -/
def seekBackward (items : List ListItem) : Nat → Int → Int
  | 0, s => s
  | fuel + 1, s =>
    if disabledAt items s ∧ s ≥ 0 then
      seekBackward items fuel (s - 1)
    else s

/-- Mirrors `moveToEnd` of `list.ts`. -/
def moveToEnd (model : ListModel) : ListModel :=
  if model.items.length = 0 then model
  else
    updateOffset
      { model with
        selected := seekBackward model.items model.items.length ((model.items.length : Int) - 1) }

/-- Direction argument of `moveByPage`. -/
inductive PageDir
  | up
  | down
deriving DecidableEq

/-- The one-index step taken by the `moveByPage` skip loop. -/
def pageStep : PageDir → Int
  | .up => -1
  | .down => 1

/-- The disabled-skipping loop of `moveByPage`: steps one index at a time in
the page direction and reports `none` (return the model unchanged) on running
out of range. Each iteration visits a fresh in-range index, so the loop runs
at most `items.length` times; fuel = `items.length` reproduces it exactly. -/
def pageSkip (items : List ListItem) (dir : PageDir) : Nat → Int → Option Int
  | 0, _ => none
  | fuel + 1, s =>
    if disabledAt items s then
      let s1 := s + pageStep dir
      if s1 < 0 ∨ s1 ≥ (items.length : Int) then none
      else pageSkip items dir fuel s1
    else some s

/-- Mirrors `moveByPage` of `list.ts`. -/
def moveByPage (model : ListModel) (dir : PageDir) : ListModel :=
  if model.items.length = 0 then model
  else
    let pageSize := if model.height > 0 then model.height else 10
    let cand0 := model.selected + (match dir with | .up => -pageSize | .down => pageSize)
    let cand := max 0 (min cand0 ((model.items.length : Int) - 1))
    match pageSkip model.items dir model.items.length cand with
    | none => model
    | some s => updateOffset { model with selected := s }

/-- Mirrors `select` of `list.ts`. -/
def select (model : ListModel) (index : Int) : ListModel :=
  if index < 0 ∨ index ≥ (model.items.length : Int) then model
  else if disabledAt model.items index then model
  else updateOffset { model with selected := index }

/-- Mirrors `filter` of `list.ts` (a `setItems` on the filtered items). -/
def filter (model : ListModel) (predicate : ListItem → Bool) : ListModel :=
  setItems model (model.items.filter predicate)

/-- Default item substituted where JS would dereference `undefined`; the view
functions only index inside the visible range, where this default is unused. -/
def defaultItem : ListItem := { title := "", description := none, disabled := false }

/-- End (exclusive) of the visible window used by `view` and `viewWith`. -/
def visibleEnd (model : ListModel) : Int :=
  if model.height > 0 then min (model.offset + model.height) (model.items.length : Int)
  else (model.items.length : Int)

/-- The integer range `[s, e)` traversed by the rendering loops. -/
def intRangeList (s e : Int) : List Int :=
  (List.range (e - s).toNat).map (fun k => s + (k : Int))

/-- One iteration of the `view` rendering loop of `list.ts`. -/
def renderLine (model : ListModel) (i : Int) : List String :=
  let item := (itemAt model.items i).getD defaultItem
  let cur := if i = model.selected then model.cursor else model.uncursor
  let line := cur ++ item.title
  let line := if item.disabled then line ++ " (disabled)" else line
  match item.description with
  | some d =>
    if model.showDescriptions ∧ d ≠ "" then [line, model.uncursor ++ "  " ++ d] else [line]
  | none => [line]

/-- Mirrors `view` of `list.ts`. -/
def view (model : ListModel) : String :=
  if model.items.length = 0 then ""
  else
    let lines := ((intRangeList model.offset (visibleEnd model)).map (renderLine model)).flatten
    String.intercalate "\n" lines

/-- Mirrors `viewWith` of `list.ts` (custom per-item renderer). -/
def viewWith (model : ListModel) (renderItem : ListItem → Bool → Int → String) : String :=
  if model.items.length = 0 then ""
  else
    let lines := (intRangeList model.offset (visibleEnd model)).map
      (fun i => renderItem ((itemAt model.items i).getD defaultItem)
        (decide (i = model.selected)) i)
    String.intercalate "\n" lines

/-- Selection bound stated by the spec: `0 ≤ selected < items.length` when
`items` is non-empty, and `selected = 0` when `items` is empty. -/
def SelOk (m : ListModel) : Prop :=
  0 ≤ m.selected ∧ (m.items ≠ [] → m.selected < (m.items.length : Int)) ∧
    (m.items = [] → m.selected = 0)

instance (m : ListModel) : Decidable (SelOk m) := by unfold SelOk; infer_instance

/-- Scroll-window invariant stated by the spec for `height = H > 0`:
`offset ≤ selected ≤ offset + H - 1` and `0 ≤ offset ≤ max(0, length - H)`. -/
def ScrollOk (m : ListModel) : Prop :=
  m.offset ≤ m.selected ∧ m.selected ≤ m.offset + m.height - 1 ∧
    0 ≤ m.offset ∧ m.offset ≤ max 0 ((m.items.length : Int) - m.height)

instance (m : ListModel) : Decidable (ScrollOk m) := by unfold ScrollOk; infer_instance

/-- Some item of the list is enabled. -/
def enabledExists (items : List ListItem) : Prop := ∃ it ∈ items, it.disabled = false

instance (items : List ListItem) : Decidable (enabledExists items) := by
  unfold enabledExists; infer_instance

/-- One navigation call of the List widget (the operations named by the
scroll-window property). -/
inductive NavOp
  | up
  | down
  | toStart
  | toEnd
  | page (dir : PageDir)
  | sel (i : Int)

/-- Apply one navigation call. -/
def applyNav (model : ListModel) : NavOp → ListModel
  | .up => moveUp model
  | .down => moveDown model
  | .toStart => moveToStart model
  | .toEnd => moveToEnd model
  | .page dir => moveByPage model dir
  | .sel i => select model i

/-- Apply a sequence of navigation calls, first element first. -/
def applyNavs (model : ListModel) (ops : List NavOp) : ListModel :=
  ops.foldl applyNav model

@[simp] lemma updateOffset_selected (m : ListModel) :
    (updateOffset m).selected = m.selected := by
  unfold updateOffset; split <;> rfl

@[simp] lemma updateOffset_items (m : ListModel) : (updateOffset m).items = m.items := by
  unfold updateOffset; split <;> rfl

@[simp] lemma updateOffset_height (m : ListModel) : (updateOffset m).height = m.height := by
  unfold updateOffset; split <;> rfl

lemma disabledAt_range (items : List ListItem) (i : Int) (h : disabledAt items i = true) :
    0 ≤ i ∧ i < (items.length : Int) := by
  unfold disabledAt itemAt at h
  by_cases h0 : 0 ≤ i
  · simp only [if_pos h0] at h
    match hx : items[i.toNat]? with
    | some it =>
      obtain ⟨hlt, -⟩ := List.getElem?_eq_some_iff.mp hx
      omega
    | none => rw [hx] at h; simp at h
  · simp [if_neg h0] at h

lemma updateOffset_scrollOk (m : ListModel)
    (hh : 0 < m.height)
    (hs0 : 0 ≤ m.selected) (hs1 : m.selected < (m.items.length : Int))
    (ho0 : 0 ≤ m.offset) (ho1 : m.offset ≤ max 0 ((m.items.length : Int) - m.height)) :
    ScrollOk (updateOffset m) := by
  unfold ScrollOk updateOffset
  split_ifs <;> dsimp only <;> omega

lemma wrapUp_range (len : Int) (w : Bool) (s : Int) (hlen : 1 ≤ len) (hs : s ≤ len - 1) :
    0 ≤ wrapUp len w s ∧ wrapUp len w s ≤ len - 1 := by
  unfold wrapUp; split <;> [skip; omega]; split <;> omega

lemma wrapDown_range (len : Int) (w : Bool) (s : Int) (hlen : 1 ≤ len) (hs : 0 ≤ s) :
    0 ≤ wrapDown len w s ∧ wrapDown len w s ≤ len - 1 := by
  unfold wrapDown; split <;> [skip; omega]; split <;> omega

lemma skipUp_range (items : List ListItem) (w : Bool) (fuel : Nat) (s : Int)
    (hlen : 1 ≤ (items.length : Int)) (hs0 : 0 ≤ s) (hs1 : s ≤ (items.length : Int) - 1) :
    0 ≤ skipUp items w fuel s ∧ skipUp items w fuel s ≤ (items.length : Int) - 1 := by
  induction fuel generalizing s with
  | zero => simpa [skipUp] using And.intro hs0 hs1
  | succ fuel ih =>
    unfold skipUp
    split
    · have h1 := wrapUp_range (items.length : Int) w (s - 1) hlen (by omega)
      exact ih _ h1.1 h1.2
    · exact ⟨hs0, hs1⟩

lemma skipDown_range (items : List ListItem) (w : Bool) (fuel : Nat) (s : Int)
    (hlen : 1 ≤ (items.length : Int)) (hs0 : 0 ≤ s) (hs1 : s ≤ (items.length : Int) - 1) :
    0 ≤ skipDown items w fuel s ∧ skipDown items w fuel s ≤ (items.length : Int) - 1 := by
  induction fuel generalizing s with
  | zero => simpa [skipDown] using And.intro hs0 hs1
  | succ fuel ih =>
    unfold skipDown
    split
    · have h1 := wrapDown_range (items.length : Int) w (s + 1) hlen (by omega)
      exact ih _ h1.1 h1.2
    · exact ⟨hs0, hs1⟩

lemma seekForward_found (items : List ListItem) (fuel : Nat) (s : Int)
    (hs0 : 0 ≤ s)
    (he : ∃ e : Int, s ≤ e ∧ e < (items.length : Int) ∧ disabledAt items e = false ∧
      e < s + (fuel : Int)) :
    0 ≤ seekForward items fuel s ∧ seekForward items fuel s < (items.length : Int) := by
  induction fuel generalizing s with
  | zero =>
    obtain ⟨e, h1, _, _, h4⟩ := he
    omega
  | succ fuel ih =>
    obtain ⟨e, h1, h2, h3, h4⟩ := he
    unfold seekForward
    split
    · rename_i hcond
      refine ih (s + 1) (by omega) ⟨e, ?_, h2, h3, by omega⟩
      have hne : s ≠ e := by
        intro hEq; rw [hEq] at hcond; rw [hcond.1] at h3; exact absurd h3 (by simp)
      omega
    · rename_i hcond
      constructor
      · exact hs0
      · by_cases hd : disabledAt items s = true
        · by_cases hr : s < (items.length : Int)
          · exact hr
          · omega
        · omega

lemma seekBackward_found (items : List ListItem) (fuel : Nat) (s : Int)
    (hs1 : s ≤ (items.length : Int) - 1)
    (he : ∃ e : Int, 0 ≤ e ∧ e ≤ s ∧ disabledAt items e = false ∧
      s - (fuel : Int) < e) :
    0 ≤ seekBackward items fuel s ∧ seekBackward items fuel s < (items.length : Int) := by
  induction fuel generalizing s with
  | zero =>
    obtain ⟨e, _, h2, _, h4⟩ := he
    omega
  | succ fuel ih =>
    obtain ⟨e, h1, h2, h3, h4⟩ := he
    unfold seekBackward
    split
    · rename_i hcond
      refine ih (s - 1) (by omega) ⟨e, h1, ?_, h3, by omega⟩
      have hne : s ≠ e := by
        intro hEq; rw [hEq] at hcond; rw [hcond.1] at h3; exact absurd h3 (by simp)
      omega
    · rename_i hcond
      rw [Classical.not_and_iff_or_not_not] at hcond
      rcases hcond with hd | hge
      · rw [Bool.not_eq_true] at hd
        omega
      · omega

lemma pageSkip_some_range (items : List ListItem) (dir : PageDir) (fuel : Nat) (s t : Int)
    (hs0 : 0 ≤ s) (hs1 : s < (items.length : Int))
    (ht : pageSkip items dir fuel s = some t) :
    0 ≤ t ∧ t < (items.length : Int) := by
  induction fuel generalizing s with
  | zero => simp [pageSkip] at ht
  | succ fuel ih =>
    unfold pageSkip at ht
    split at ht
    · simp only at ht
      split at ht
      · exact absurd ht (by simp)
      · rename_i hrange
        exact ih _ (by omega) (by omega) ht
    · obtain rfl : s = t := by simpa using ht
      exact ⟨hs0, hs1⟩

lemma enabledExists_index (items : List ListItem) (h : enabledExists items) :
    ∃ e : Int, 0 ≤ e ∧ e < (items.length : Int) ∧ disabledAt items e = false := by
  obtain ⟨it, hmem, hdis⟩ := h
  obtain ⟨n, hn, hget⟩ := List.getElem_of_mem hmem
  refine ⟨(n : Int), by omega, by exact_mod_cast hn, ?_⟩
  unfold disabledAt itemAt
  have : ((n : Int)).toNat = n := by omega
  simp only [if_pos (by omega : (0 : Int) ≤ (n : Int)), this]
  rw [List.getElem?_eq_getElem hn, hget]
  simpa using hdis

lemma applyNav_empty (m : ListModel) (op : NavOp) (h : m.items = []) : applyNav m op = m := by
  have hlen : m.items.length = 0 := by simp [h]
  cases op with
  | up => simp [applyNav, moveUp, hlen]
  | down => simp [applyNav, moveDown, hlen]
  | toStart => simp [applyNav, moveToStart, hlen]
  | toEnd => simp [applyNav, moveToEnd, hlen]
  | page dir => simp [applyNav, moveByPage, hlen]
  | sel i =>
    simp only [applyNav, select, hlen]
    rw [if_pos (by omega)]

lemma moveUp_char (m : ListModel) (hne : m.items.length ≠ 0)
    (hs0 : 0 ≤ m.selected) (hs1 : m.selected < (m.items.length : Int)) :
    ∃ s, 0 ≤ s ∧ s < (m.items.length : Int) ∧
      moveUp m = updateOffset { m with selected := s } := by
  unfold moveUp
  rw [if_neg hne]
  have h0 := wrapUp_range (m.items.length : Int) m.wrap (m.selected - 1) (by omega) (by omega)
  have h1 := skipUp_range m.items m.wrap m.items.length _ (by omega) h0.1 h0.2
  exact ⟨_, h1.1, by omega, rfl⟩

lemma moveDown_char (m : ListModel) (hne : m.items.length ≠ 0)
    (hs0 : 0 ≤ m.selected) :
    ∃ s, 0 ≤ s ∧ s < (m.items.length : Int) ∧
      moveDown m = updateOffset { m with selected := s } := by
  unfold moveDown
  rw [if_neg hne]
  have h0 := wrapDown_range (m.items.length : Int) m.wrap (m.selected + 1) (by omega) (by omega)
  have h1 := skipDown_range m.items m.wrap m.items.length _ (by omega) h0.1 h0.2
  exact ⟨_, h1.1, by omega, rfl⟩

lemma moveToStart_char (m : ListModel) (hne : m.items.length ≠ 0)
    (hen : enabledExists m.items) :
    ∃ s, 0 ≤ s ∧ s < (m.items.length : Int) ∧
      moveToStart m = updateOffset { m with selected := s } := by
  unfold moveToStart
  rw [if_neg hne]
  obtain ⟨e, he0, he1, he2⟩ := enabledExists_index m.items hen
  have h1 := seekForward_found m.items m.items.length 0 (by omega)
    ⟨e, by omega, he1, he2, by omega⟩
  exact ⟨_, h1.1, h1.2, rfl⟩

lemma moveToEnd_char (m : ListModel) (hne : m.items.length ≠ 0)
    (hen : enabledExists m.items) :
    ∃ s, 0 ≤ s ∧ s < (m.items.length : Int) ∧
      moveToEnd m = updateOffset { m with selected := s } := by
  unfold moveToEnd
  rw [if_neg hne]
  obtain ⟨e, he0, he1, he2⟩ := enabledExists_index m.items hen
  have h1 := seekBackward_found m.items m.items.length ((m.items.length : Int) - 1) (by omega)
    ⟨e, he0, by omega, he2, by omega⟩
  exact ⟨_, h1.1, h1.2, rfl⟩

lemma moveByPage_char (m : ListModel) (dir : PageDir) :
    moveByPage m dir = m ∨
      ∃ s, 0 ≤ s ∧ s < (m.items.length : Int) ∧
        moveByPage m dir = updateOffset { m with selected := s } := by
  unfold moveByPage
  split
  · exact Or.inl rfl
  · rename_i hne
    dsimp only
    set cand := max 0 (min (m.selected + (match dir with | .up => -(if m.height > 0 then m.height else 10) | .down => (if m.height > 0 then m.height else 10))) ((m.items.length : Int) - 1)) with hcand
    match hskip : pageSkip m.items dir m.items.length cand with
    | none => exact Or.inl rfl
    | some s =>
      have hr := pageSkip_some_range m.items dir m.items.length cand s
        (by omega) (by omega) hskip
      exact Or.inr ⟨s, hr.1, hr.2, rfl⟩

lemma select_char (m : ListModel) (i : Int) :
    select m i = m ∨
      (0 ≤ i ∧ i < (m.items.length : Int) ∧
        select m i = updateOffset { m with selected := i }) := by
  unfold select
  split_ifs with h1 h2
  · exact Or.inl rfl
  · exact Or.inl rfl
  · exact Or.inr ⟨by omega, by omega, rfl⟩

lemma selOk_of_update (m : ListModel) (s : Int) (hs0 : 0 ≤ s)
    (hs1 : s < (m.items.length : Int)) :
    SelOk (updateOffset { m with selected := s }) := by
  refine ⟨by simpa using hs0, fun _ => by simpa using hs1, fun hemp => ?_⟩
  rw [updateOffset_items] at hemp
  simp only at hemp
  rw [hemp] at hs1
  simp at hs1
  omega

/-- Inductive invariant for the scroll-window property: positive height,
selection in bounds, window containing the selection, offset in bounds, and
items either empty or containing an enabled entry. -/
def NavInv (m : ListModel) : Prop :=
  0 < m.height ∧ SelOk m ∧ ScrollOk m ∧ (m.items = [] ∨ enabledExists m.items)

lemma navInv_of_update (m : ListModel) (s : Int) (h : NavInv m) (hs0 : 0 ≤ s)
    (hs1 : s < (m.items.length : Int)) :
    NavInv (updateOffset { m with selected := s }) := by
  obtain ⟨hh, _, hscr, hor⟩ := h
  refine ⟨by simpa using hh, selOk_of_update m s hs0 hs1, ?_, by simpa using hor⟩
  exact updateOffset_scrollOk _ (by simpa using hh) (by simpa using hs0)
    (by simpa using hs1) (by simpa using hscr.2.2.1) (by simpa using hscr.2.2.2)

lemma applyNav_navInv (m : ListModel) (op : NavOp) (h : NavInv m) :
    NavInv (applyNav m op) := by
  by_cases hemp : m.items = []
  · rw [applyNav_empty m op hemp]; exact h
  · have hne : m.items.length ≠ 0 := by simpa using hemp
    have hen : enabledExists m.items := h.2.2.2.resolve_left hemp
    have hs0 : 0 ≤ m.selected := h.2.1.1
    have hs1 : m.selected < (m.items.length : Int) := h.2.1.2.1 hemp
    cases op with
    | up =>
      obtain ⟨s, h1, h2, heq⟩ := moveUp_char m hne hs0 hs1
      rw [applyNav, heq]; exact navInv_of_update m s h h1 h2
    | down =>
      obtain ⟨s, h1, h2, heq⟩ := moveDown_char m hne hs0
      rw [applyNav, heq]; exact navInv_of_update m s h h1 h2
    | toStart =>
      obtain ⟨s, h1, h2, heq⟩ := moveToStart_char m hne hen
      rw [applyNav, heq]; exact navInv_of_update m s h h1 h2
    | toEnd =>
      obtain ⟨s, h1, h2, heq⟩ := moveToEnd_char m hne hen
      rw [applyNav, heq]; exact navInv_of_update m s h h1 h2
    | page dir =>
      rcases moveByPage_char m dir with heq | ⟨s, h1, h2, heq⟩
      · rw [applyNav, heq]; exact h
      · rw [applyNav, heq]; exact navInv_of_update m s h h1 h2
    | sel i =>
      rcases select_char m i with heq | ⟨h1, h2, heq⟩
      · rw [applyNav, heq]; exact h
      · rw [applyNav, heq]; exact navInv_of_update m i h h1 h2

lemma applyNavs_navInv (m : ListModel) (ops : List NavOp) (h : NavInv m) :
    NavInv (applyNavs m ops) := by
  induction ops generalizing m with
  | nil => exact h
  | cons op ops ih => exact ih _ (applyNav_navInv m op h)

lemma applyNav_offsetZero (m : ListModel) (op : NavOp) (hh : m.height = 0)
    (ho : m.offset = 0) : (applyNav m op).height = 0 ∧ (applyNav m op).offset = 0 := by
  have hupd : ∀ m' : ListModel, m'.height = 0 → (updateOffset m').offset = 0 := by
    intro m' h0; unfold updateOffset; rw [if_pos h0]
  by_cases hemp : m.items = []
  · rw [applyNav_empty m op hemp]; exact ⟨hh, ho⟩
  · have hne : m.items.length ≠ 0 := by simpa using hemp
    cases op with
    | up =>
      unfold applyNav moveUp
      rw [if_neg hne]
      exact ⟨by simpa using hh, hupd _ (by simpa using hh)⟩
    | down =>
      unfold applyNav moveDown
      rw [if_neg hne]
      exact ⟨by simpa using hh, hupd _ (by simpa using hh)⟩
    | toStart =>
      unfold applyNav moveToStart
      rw [if_neg hne]
      exact ⟨by simpa using hh, hupd _ (by simpa using hh)⟩
    | toEnd =>
      unfold applyNav moveToEnd
      rw [if_neg hne]
      exact ⟨by simpa using hh, hupd _ (by simpa using hh)⟩
    | page dir =>
      rcases moveByPage_char m dir with heq | ⟨s, _, _, heq⟩
      · rw [applyNav, heq]; exact ⟨hh, ho⟩
      · rw [applyNav, heq]; exact ⟨by simpa using hh, hupd _ (by simpa using hh)⟩
    | sel i =>
      rcases select_char m i with heq | ⟨_, _, heq⟩
      · rw [applyNav, heq]; exact ⟨hh, ho⟩
      · rw [applyNav, heq]; exact ⟨by simpa using hh, hupd _ (by simpa using hh)⟩

lemma applyNavs_offsetZero (m : ListModel) (ops : List NavOp) (hh : m.height = 0)
    (ho : m.offset = 0) : (applyNavs m ops).offset = 0 := by
  induction ops generalizing m with
  | nil => exact ho
  | cons op ops ih =>
    have h1 := applyNav_offsetZero m op hh ho
    exact ih _ h1.1 h1.2

lemma createList_selOk (opts : ListOptions) : SelOk (createList opts) := by
  unfold SelOk createList
  dsimp only
  refine ⟨by omega, fun hne => ?_, fun hemp => ?_⟩
  · have h1 : 0 < (opts.items.getD []).length := List.length_pos.mpr hne
    omega
  · have h1 : (opts.items.getD []).length = 0 := by simp [hemp]
    omega

lemma setItems_selOk (m : ListModel) (its : List ListItem) (h : SelOk m) :
    SelOk (setItems m its) := by
  obtain ⟨h0, _, _⟩ := h
  unfold SelOk setItems
  dsimp only
  refine ⟨by omega, fun hne => ?_, fun hemp => ?_⟩
  · have h1 : 0 < its.length := List.length_pos.mpr hne
    omega
  · have h1 : its.length = 0 := by simp [hemp]
    omega

lemma moveUp_selOk (m : ListModel) (h : SelOk m) : SelOk (moveUp m) := by
  by_cases hemp : m.items = []
  · rw [show moveUp m = applyNav m .up from rfl, applyNav_empty m .up hemp]; exact h
  · have hne : m.items.length ≠ 0 := by simpa using hemp
    obtain ⟨s, h1, h2, heq⟩ := moveUp_char m hne h.1 (h.2.1 hemp)
    rw [heq]; exact selOk_of_update m s h1 h2

lemma moveDown_selOk (m : ListModel) (h : SelOk m) : SelOk (moveDown m) := by
  by_cases hemp : m.items = []
  · rw [show moveDown m = applyNav m .down from rfl, applyNav_empty m .down hemp]; exact h
  · have hne : m.items.length ≠ 0 := by simpa using hemp
    obtain ⟨s, h1, h2, heq⟩ := moveDown_char m hne h.1
    rw [heq]; exact selOk_of_update m s h1 h2

/-- C2 counterexample input: a single-item list whose only item is disabled. -/
def c2exList : ListModel :=
  createList { items := some [{ title := "a", description := none, disabled := true }] }

/-- C2 is false as stated: on a non-empty list whose items are all disabled,
`moveToStart` leaves `selected = items.length`, outside `[0, items.length)`
(the skip loop runs off the end of the items). -/
theorem c2_counterexample :
    c2exList.items ≠ [] ∧
      ¬ (0 ≤ (moveToStart c2exList).selected ∧
          (moveToStart c2exList).selected < ((moveToStart c2exList).items.length : Int)) := by
  decide

/-- C2 (amended): `createList`, `setItems`, `moveUp`, `moveDown`, `moveByPage`,
`select` and `filter` preserve the selection bound `0 ≤ selected <
items.length` (with `selected = 0` when `items` is empty); `moveToStart` and
`moveToEnd` preserve it provided the list is empty or some item is enabled
(when every item of a non-empty list is disabled they drive `selected` out of
range instead). -/
theorem c2_selection_bounds :
    (∀ opts, SelOk (createList opts)) ∧
    (∀ m its, SelOk m → SelOk (setItems m its)) ∧
    (∀ m, SelOk m → SelOk (moveUp m)) ∧
    (∀ m, SelOk m → SelOk (moveDown m)) ∧
    (∀ m, SelOk m → (m.items = [] ∨ enabledExists m.items) →
      SelOk (moveToStart m) ∧ SelOk (moveToEnd m)) ∧
    (∀ m dir, SelOk m → SelOk (moveByPage m dir)) ∧
    (∀ m i, SelOk m → SelOk (select m i)) ∧
    (∀ m p, SelOk m → SelOk (filter m p)) := by
  refine ⟨createList_selOk, setItems_selOk, moveUp_selOk, moveDown_selOk, ?_, ?_, ?_, ?_⟩
  · intro m h hor
    by_cases hemp : m.items = []
    · rw [show moveToStart m = applyNav m .toStart from rfl, applyNav_empty m .toStart hemp,
        show moveToEnd m = applyNav m .toEnd from rfl, applyNav_empty m .toEnd hemp]
      exact ⟨h, h⟩
    · have hne : m.items.length ≠ 0 := by simpa using hemp
      have hen : enabledExists m.items := hor.resolve_left hemp
      obtain ⟨s, h1, h2, heq⟩ := moveToStart_char m hne hen
      obtain ⟨t, h3, h4, heq2⟩ := moveToEnd_char m hne hen
      rw [heq, heq2]
      exact ⟨selOk_of_update m s h1 h2, selOk_of_update m t h3 h4⟩
  · intro m dir h
    rcases moveByPage_char m dir with heq | ⟨s, h1, h2, heq⟩
    · rw [heq]; exact h
    · rw [heq]; exact selOk_of_update m s h1 h2
  · intro m i h
    rcases select_char m i with heq | ⟨h1, h2, heq⟩
    · rw [heq]; exact h
    · rw [heq]; exact selOk_of_update m i h1 h2
  · intro m p h
    exact setItems_selOk m _ h

/-- Witness for C2: the amended theorem applied at a concrete two-item list. -/
theorem c2_selection_bounds_witness :
    SelOk (moveToStart (createList
      { items := some [{ title := "a", description := none, disabled := true },
                       { title := "b", description := none, disabled := false }] })) :=
  (c2_selection_bounds.2.2.2.2.1
    (createList { items := some [{ title := "a", description := none, disabled := true },
                                 { title := "b", description := none, disabled := false }] })
    (by decide) (by decide)).1

/-- C1 counterexample input: five enabled items, `selected: 4`, `height: 2`. -/
def c1exOptions : ListOptions :=
  { items := some (List.replicate 5 { title := "a", description := none, disabled := false })
    selected := some 4
    height := some 2 }

/-- C1 is false as stated: `createList` never recomputes `offset`, so a
created model whose initial selection lies beyond the first window violates
`selected ≤ offset + height - 1`, and a navigation call that fails closed
(here `select 10`, out of range) preserves the violation. -/
theorem c1_counterexample :
    0 < (createList c1exOptions).height ∧
      ¬ ScrollOk (applyNavs (createList c1exOptions) [NavOp.sel 10]) := by
  decide

/-- C1 (amended): starting from a created model with `height = H > 0` whose
initial clamped selection lies inside the first window (`selected ≤ H - 1`,
true in particular for the default `selected = 0`) and whose items are empty
or contain at least one enabled item, every sequence of navigation calls
(`moveUp`, `moveDown`, `moveToStart`, `moveToEnd`, `moveByPage`, `select`)
keeps the scroll window over the selection and in bounds:
`offset ≤ selected ≤ offset + H - 1` and `0 ≤ offset ≤ max 0 (length - H)`;
when `height = 0`, `offset` stays 0 under every such sequence. -/
theorem c1_scroll_window (opts : ListOptions) (ops : List NavOp) :
    (0 < (createList opts).height →
      (createList opts).selected ≤ (createList opts).height - 1 →
      ((createList opts).items = [] ∨ enabledExists (createList opts).items) →
      ScrollOk (applyNavs (createList opts) ops)) ∧
    ((createList opts).height = 0 → (applyNavs (createList opts) ops).offset = 0) := by
  constructor
  · intro hh hwin hor
    have hsel := createList_selOk opts
    have hoff : (createList opts).offset = 0 := rfl
    have hscr : ScrollOk (createList opts) := by
      refine ⟨by rw [hoff]; exact hsel.1, by omega, by omega, ?_⟩
      rw [hoff]
      exact le_max_left _ _
    exact (applyNavs_navInv (createList opts) ops ⟨hh, hsel, hscr, hor⟩).2.2.1
  · intro hh
    exact applyNavs_offsetZero (createList opts) ops hh rfl

/-- Three enabled items with a two-row window, for the C1 witness. -/
def cwOptions : ListOptions :=
  { items := some (List.replicate 3 { title := "a", description := none, disabled := false })
    height := some 2 }

/-- Three enabled items with the default unbounded height, for the C1
witness. -/
def czOptions : ListOptions :=
  { items := some (List.replicate 3 { title := "a", description := none, disabled := false }) }

/-- Witness for C1: the amended theorem applied at concrete lists, one with
`height = 2` (window part) and one with the default `height = 0` (offset
part). -/
theorem c1_scroll_window_witness :
    ScrollOk (applyNavs (createList cwOptions) [NavOp.down, NavOp.down, NavOp.sel 0]) ∧
    (applyNavs (createList czOptions) [NavOp.down]).offset = 0 :=
  ⟨(c1_scroll_window cwOptions [NavOp.down, NavOp.down, NavOp.sel 0]).1
      (by decide) (by decide) (by decide),
   (c1_scroll_window czOptions [NavOp.down]).2 (by decide)⟩

/-- C4 (confirmed): `select` fails closed — an out-of-range index or a
disabled target returns the input model unchanged, with no field changes. -/
theorem c4_select_fails_closed (m : ListModel) (i : Int)
    (h : i < 0 ∨ i ≥ (m.items.length : Int) ∨ disabledAt m.items i = true) :
    select m i = m := by
  unfold select
  split_ifs with h1 h2
  · rfl
  · rfl
  · exfalso
    rcases h with ha | ha | ha
    · exact h1 (Or.inl ha)
    · exact h1 (Or.inr ha)
    · rw [ha] at h2; exact h2 rfl

/-- One enabled item, for the C4 witness. -/
def c4mList : ListModel :=
  createList { items := some [{ title := "a", description := none, disabled := false }] }

/-- Witness for C4 at an out-of-range index of a concrete one-item list. -/
theorem c4_select_fails_closed_witness :
    (5 : Int) ≥ (c4mList.items.length : Int) ∧ select c4mList 5 = c4mList :=
  ⟨by decide, c4_select_fails_closed c4mList 5 (by decide)⟩

/-- C10 (confirmed): on an empty items sequence `view` returns the empty
string, and `viewWith` returns the empty string for every renderer. -/
theorem c10_view_empty (m : ListModel) (h : m.items = []) :
    view m = "" ∧ ∀ r, viewWith m r = "" := by
  have hlen : m.items.length = 0 := by simp [h]
  constructor
  · unfold view
    rw [if_pos hlen]
  · intro r
    unfold viewWith
    rw [if_pos hlen]

/-- Witness for C10 at the default-created (empty) list, with a nontrivial
renderer for `viewWith`. -/
theorem c10_view_empty_witness :
    view (createList {}) = "" ∧
      viewWith (createList {}) (fun it _ _ => it.title ++ "!") = "" :=
  ⟨(c10_view_empty (createList {}) rfl).1,
   (c10_view_empty (createList {}) rfl).2 _⟩

/-- Enabled test by natural index (false out of range). -/
def enabledAtNat (items : List ListItem) (j : Nat) : Bool :=
  match items[j]? with
  | some it => !it.disabled
  | none => false

/-- Declarative reading of the `moveByPage` skip: the first enabled index at
or after the candidate (stepping down), or the last enabled index at or
before it (stepping up); `none` when the walk would run off the end. -/
def firstEnabledFrom (items : List ListItem) (dir : PageDir) (c : Int) : Option Int :=
  match dir with
  | .down =>
    (((List.range items.length).drop c.toNat).find? (enabledAtNat items)).map
      (fun j => (j : Int))
  | .up =>
    ((((List.range items.length).take (c.toNat + 1)).reverse).find? (enabledAtNat items)).map
      (fun j => (j : Int))

lemma disabledAt_coe (items : List ListItem) (s : Nat) (h : s < items.length) :
    disabledAt items (s : Int) = !(enabledAtNat items s) := by
  unfold disabledAt itemAt enabledAtNat
  rw [if_pos (by omega : (0 : Int) ≤ (s : Int))]
  rw [show ((s : Int)).toNat = s from rfl]
  rw [List.getElem?_eq_getElem h]
  simp

lemma range_drop_cons (len s : Nat) (h : s < len) :
    (List.range len).drop s = s :: (List.range len).drop (s + 1) := by
  rw [List.drop_eq_getElem_cons (by simpa using h)]
  simp

lemma range_drop_len (len : Nat) : (List.range len).drop len = [] := by
  apply List.drop_eq_nil_of_le
  simp

lemma range_take_succ (len s : Nat) (h : s < len) :
    (List.range len).take (s + 1) = (List.range len).take s ++ [s] := by
  rw [List.take_succ]
  congr 1
  rw [List.getElem?_eq_getElem (by simpa using h)]
  simp

lemma pageSkip_down_eq (items : List ListItem) (fuel : Nat) :
    ∀ s : Nat, s < items.length → items.length - s ≤ fuel →
    pageSkip items .down fuel (s : Int) =
      (((List.range items.length).drop s).find? (enabledAtNat items)).map
        (fun j => (j : Int)) := by
  induction fuel with
  | zero => intro s h1 h2; omega
  | succ fuel ih =>
    intro s h1 h2
    rw [range_drop_cons items.length s h1]
    unfold pageSkip
    rw [disabledAt_coe items s h1]
    by_cases he : enabledAtNat items s
    · rw [he]
      rw [List.find?_cons_of_pos _ he]
      simp
    · rw [Bool.not_eq_true] at he
      rw [he]
      rw [List.find?_cons_of_neg _ (by simp [he])]
      simp only [Bool.not_false, if_pos]
      rw [show (s : Int) + pageStep .down = ((s + 1 : Nat) : Int) by simp [pageStep]]
      by_cases hend : s + 1 = items.length
      · rw [if_pos (by omega)]
        rw [hend, range_drop_len]
        simp
      · rw [if_neg (by omega)]
        exact ih (s + 1) (by omega) (by omega)

lemma pageSkip_up_eq (items : List ListItem) (fuel : Nat) :
    ∀ s : Nat, s < items.length → s + 1 ≤ fuel →
    pageSkip items .up fuel (s : Int) =
      ((((List.range items.length).take (s + 1)).reverse).find? (enabledAtNat items)).map
        (fun j => (j : Int)) := by
  induction fuel with
  | zero => intro s h1 h2; omega
  | succ fuel ih =>
    intro s h1 h2
    rw [range_take_succ items.length s h1, List.reverse_append]
    simp only [List.reverse_singleton, List.singleton_append]
    unfold pageSkip
    rw [disabledAt_coe items s h1]
    by_cases he : enabledAtNat items s
    · rw [he]
      rw [List.find?_cons_of_pos _ he]
      simp
    · rw [Bool.not_eq_true] at he
      rw [he]
      rw [List.find?_cons_of_neg _ (by simp [he])]
      simp only [Bool.not_false, if_pos]
      match s, h1 with
      | 0, _ =>
        rw [show ((0 : Nat) : Int) + pageStep .up = -1 by simp [pageStep]]
        rw [if_pos (by omega)]
        simp
      | k + 1, h1 =>
        rw [show ((k + 1 : Nat) : Int) + pageStep .up = ((k : Nat) : Int) by
          simp [pageStep]]
        rw [if_neg (by omega)]
        exact ih k (by omega) (by omega)

lemma firstEnabledFrom_down_coe (items : List ListItem) (n : Nat) :
    firstEnabledFrom items .down ((n : Nat) : Int) =
      (((List.range items.length).drop n).find? (enabledAtNat items)).map
        (fun j => (j : Int)) := by
  unfold firstEnabledFrom
  norm_num

lemma firstEnabledFrom_up_coe (items : List ListItem) (n : Nat) :
    firstEnabledFrom items .up ((n : Nat) : Int) =
      ((((List.range items.length).take (n + 1)).reverse).find? (enabledAtNat items)).map
        (fun j => (j : Int)) := by
  unfold firstEnabledFrom
  norm_num

/-- C5 (confirmed): on a non-empty list, `moveByPage` jumps by `height` (10
when height is unset), clamps the candidate into `[0, items.length - 1]`,
walks one index at a time in the page direction over disabled items, and
returns the input model unchanged when that walk runs off either end — it
never falls back to a boundary item. -/
theorem c5_moveByPage_walk (m : ListModel) (dir : PageDir) (hne : m.items ≠ []) :
    moveByPage m dir =
      match firstEnabledFrom m.items dir
        (max 0 (min (m.selected +
            (match dir with
             | .up => -(if m.height > 0 then m.height else 10)
             | .down => (if m.height > 0 then m.height else 10)))
          ((m.items.length : Int) - 1))) with
      | some t => updateOffset { m with selected := t }
      | none => m := by
  have hlen : ¬ m.items.length = 0 := by simpa using hne
  unfold moveByPage
  rw [if_neg hlen]
  dsimp only
  set cand := max 0 (min (m.selected +
      (match dir with
       | .up => -(if m.height > 0 then m.height else 10)
       | .down => (if m.height > 0 then m.height else 10)))
    ((m.items.length : Int) - 1)) with hcand
  have h0 : (0 : Int) ≤ cand := le_max_left _ _
  have h1 : cand ≤ (m.items.length : Int) - 1 := by
    have hp : 1 ≤ m.items.length := by omega
    have := min_le_right (m.selected +
      (match dir with
       | .up => -(if m.height > 0 then m.height else 10)
       | .down => (if m.height > 0 then m.height else 10))) ((m.items.length : Int) - 1)
    rw [hcand]
    omega
  have hnat : cand = ((cand.toNat : Nat) : Int) := by omega
  cases dir with
  | down =>
    rw [hnat, pageSkip_down_eq m.items m.items.length cand.toNat (by omega) (by omega),
      firstEnabledFrom_down_coe]
    cases ((List.range m.items.length).drop cand.toNat).find? (enabledAtNat m.items) with
    | none => rfl
    | some j => rfl
  | up =>
    rw [hnat, pageSkip_up_eq m.items m.items.length cand.toNat (by omega) (by omega),
      firstEnabledFrom_up_coe]
    cases (((List.range m.items.length).take (cand.toNat + 1)).reverse).find?
        (enabledAtNat m.items) with
    | none => rfl
    | some j => rfl

/-- Witness for C5: a five-item list with a disabled block at the end, paged
down from the start. -/
def c5mList : ListModel :=
  createList
    { items := some
        [{ title := "a", description := none, disabled := false },
         { title := "b", description := none, disabled := false },
         { title := "c", description := none, disabled := true },
         { title := "d", description := none, disabled := true },
         { title := "e", description := none, disabled := true }]
      height := some 3 }

/-- Witness for C5: the theorem applied at a concrete list (the walk runs off
the bottom, so the model is returned unchanged). -/
theorem c5_moveByPage_walk_witness :
    moveByPage c5mList .down =
      match firstEnabledFrom c5mList.items .down
        (max 0 (min (c5mList.selected +
            (match PageDir.down with
             | .up => -(if c5mList.height > 0 then c5mList.height else 10)
             | .down => (if c5mList.height > 0 then c5mList.height else 10)))
          ((c5mList.items.length : Int) - 1))) with
      | some t => updateOffset { c5mList with selected := t }
      | none => c5mList :=
  c5_moveByPage_walk c5mList .down (by decide)

end WList

namespace WTable

/-- Text alignment of a table column. -/
inductive Align
  | left
  | center
  | right
deriving DecidableEq

/-- A table row, modelled as a lookup from column key to the string image of
the raw cell value (`none` for a missing value); `String(value)` of the
source becomes the identity on that image. -/
def Row : Type := String → Option String

/-- Column definition, mirroring `TableColumn`: optional fixed width and
min/max bounds (JS treats 0 as falsy, i.e. as absent, matching the source
comment `0 = auto`), optional alignment, optional formatter. -/
structure TableColumn where
  key : String
  title : String
  width : Option Nat
  minWidth : Option Nat
  maxWidth : Option Nat
  align : Option Align
  format : Option (Option String → Row → String)

/-- The 16-glyph border set of the source. -/
structure TableBorder where
  top : String
  topLeft : String
  topRight : String
  topMid : String
  bottom : String
  bottomLeft : String
  bottomRight : String
  bottomMid : String
  left : String
  right : String
  mid : String
  midLeft : String
  midRight : String
  midMid : String
  horizontal : String
  vertical : String

/-- Named border presets of the source. -/
inductive TableBorderName
  | none
  | simple
  | rounded
  | single
  | double
  | thick

/-- The built-in `TableBorders` table. -/
def TableBorders : TableBorderName → TableBorder
  | .none =>
    { top := "", topLeft := "", topRight := "", topMid := ""
      bottom := "", bottomLeft := "", bottomRight := "", bottomMid := ""
      left := "", right := "", mid := ""
      midLeft := "", midRight := "", midMid := ""
      horizontal := "", vertical := " " }
  | .simple =>
    { top := "-", topLeft := "", topRight := "", topMid := ""
      bottom := "-", bottomLeft := "", bottomRight := "", bottomMid := ""
      left := "", right := "", mid := "-"
      midLeft := "", midRight := "", midMid := ""
      horizontal := "-", vertical := " | " }
  | .rounded =>
    { top := "─", topLeft := "╭", topRight := "╮", topMid := "┬"
      bottom := "─", bottomLeft := "╰", bottomRight := "╯", bottomMid := "┴"
      left := "│", right := "│", mid := "─"
      midLeft := "├", midRight := "┤", midMid := "┼"
      horizontal := "─", vertical := "│" }
  | .single =>
    { top := "─", topLeft := "┌", topRight := "┐", topMid := "┬"
      bottom := "─", bottomLeft := "└", bottomRight := "┘", bottomMid := "┴"
      left := "│", right := "│", mid := "─"
      midLeft := "├", midRight := "┤", midMid := "┼"
      horizontal := "─", vertical := "│" }
  | .double =>
    { top := "═", topLeft := "╔", topRight := "╗", topMid := "╦"
      bottom := "═", bottomLeft := "╚", bottomRight := "╝", bottomMid := "╩"
      left := "║", right := "║", mid := "═"
      midLeft := "╠", midRight := "╣", midMid := "╬"
      horizontal := "═", vertical := "║" }
  | .thick =>
    { top := "━", topLeft := "┏", topRight := "┓", topMid := "┳"
      bottom := "━", bottomLeft := "┗", bottomRight := "┛", bottomMid := "┻"
      left := "┃", right := "┃", mid := "━"
      midLeft := "┣", midRight := "┫", midMid := "╋"
      horizontal := "━", vertical := "┃" }

/-- The `border` option: either a preset name or a caller-supplied glyph
set. -/
inductive BorderChoice
  | name (n : TableBorderName)
  | custom (b : TableBorder)

/-- Table model, mirroring `TableModel`. -/
structure TableModel where
  columns : List TableColumn
  rows : List Row
  border : TableBorder
  showHeader : Bool
  showHeaderSeparator : Bool
  padding : Nat
  selected : Int
  cursor : String
  selectable : Bool
  columnWidths : List Nat

/-- Table options, mirroring `TableOptions`. -/
structure TableOptions where
  columns : List TableColumn
  rows : Option (List Row) := Option.none
  border : Option BorderChoice := Option.none
  showHeader : Option Bool := Option.none
  showHeaderSeparator : Option Bool := Option.none
  padding : Option Nat := Option.none
  selected : Option Int := Option.none
  cursor : Option String := Option.none
  selectable : Option Bool := Option.none

/-- Border resolution of `createTable`: a preset name is looked up, a custom
set is used verbatim, and the default is `single`. -/
def resolveBorder : Option BorderChoice → TableBorder
  | some (.name n) => TableBorders n
  | some (.custom b) => b
  | Option.none => TableBorders .single

/-- Mirrors `getValue` of `table.ts` (rows are objects here, so the
`typeof row === object` guard always passes). -/
def getValue (row : Row) (col : TableColumn) : Option String := row col.key

/-- The formatted cell text: `format(value, row)` when a formatter is given,
else `String(value ?? "")`. -/
def formatCell (col : TableColumn) (row : Row) : String :=
  match col.format with
  | some f => f (getValue row col) row
  | Option.none => (getValue row col).getD ""

/-- JS truthiness of an optional numeric field: absent and 0 are falsy. -/
def truthyN (o : Option Nat) : Bool := o.getD 0 ≠ 0

/-- The per-column width computation shared verbatim by `createTable` and
`setRows`: fold the formatted lengths over the rows starting from the title
length, then apply the fixed/min/max constraints. -/
def computeColumnWidth (col : TableColumn) (rows : List Row) : Nat :=
  let w := rows.foldl (fun w row => max w (formatCell col row).length) col.title.length
  if truthyN col.width then col.width.getD 0
  else
    let w := if truthyN col.minWidth then max w (col.minWidth.getD 0) else w
    let w := if truthyN col.maxWidth then min w (col.maxWidth.getD 0) else w
    w

/-- Mirrors `createTable` of `table.ts`. -/
def createTable (options : TableOptions) : TableModel :=
  let border := resolveBorder options.border
  let rows := options.rows.getD []
  let columns := options.columns
  let padding := options.padding.getD 1
  { columns := columns
    rows := rows
    border := border
    showHeader := options.showHeader.getD true
    showHeaderSeparator := options.showHeaderSeparator.getD true
    padding := padding
    selected := options.selected.getD (-1)
    cursor := options.cursor.getD "→"
    selectable := options.selectable.getD false
    columnWidths := columns.map (fun col => computeColumnWidth col rows) }

/-- Mirrors `setRows` of `table.ts`. -/
def setRows (model : TableModel) (rows : List Row) : TableModel :=
  { model with
    rows := rows
    columnWidths := model.columns.map (fun col => computeColumnWidth col rows)
    selected := min model.selected ((rows.length : Int) - 1) }

/-- Column width as the spec words it: an explicit fixed width overrides the
computed width entirely; otherwise the maximum of the title length and, over
all rows, the formatted cell text length, clamped into `[minWidth, maxWidth]`
with either bound optional (an absent lower bound is the trivial bound 0). -/
def specColumnWidth (col : TableColumn) (rows : List Row) : Nat :=
  if truthyN col.width then col.width.getD 0
  else
    let content :=
      max col.title.length ((rows.map (fun row => (formatCell col row).length)).foldr max 0)
    let lo := if truthyN col.minWidth then col.minWidth.getD 0 else 0
    let w1 := max content lo
    if truthyN col.maxWidth then min w1 (col.maxWidth.getD 0) else w1

lemma foldl_max_eq (l : List Nat) (a : Nat) : l.foldl max a = max a (l.foldr max 0) := by
  induction l generalizing a with
  | nil => simp
  | cons x xs ih =>
    rw [List.foldl_cons, ih (max a x), List.foldr_cons]
    omega

lemma computeColumnWidth_eq (col : TableColumn) (rows : List Row) :
    computeColumnWidth col rows = specColumnWidth col rows := by
  unfold computeColumnWidth specColumnWidth
  have hfold : rows.foldl (fun w row => max w (formatCell col row).length) col.title.length =
      max col.title.length ((rows.map (fun row => (formatCell col row).length)).foldr max 0) := by
    rw [← foldl_max_eq, List.foldl_map]
  rw [hfold]
  dsimp only
  split_ifs <;> omega

@[simp] lemma createTable_columnWidths (opts : TableOptions) :
    (createTable opts).columnWidths =
      opts.columns.map (fun col => computeColumnWidth col (opts.rows.getD [])) := rfl

@[simp] lemma setRows_columnWidths (m : TableModel) (rows : List Row) :
    (setRows m rows).columnWidths =
      m.columns.map (fun col => computeColumnWidth col rows) := rfl

/-- C3 (confirmed): every `columnWidths` entry produced by `createTable` or
`setRows` equals the spec formula — the fixed width when one is specified
(0 counting as unspecified, as the source documents), else the maximum of the
title length and all formatted cell text lengths, clamped into the optional
`[minWidth, maxWidth]` bounds. -/
theorem c3_column_widths :
    (∀ (opts : TableOptions) (i : Nat),
      (createTable opts).columnWidths[i]? =
        (opts.columns[i]?).map (fun col => specColumnWidth col (opts.rows.getD []))) ∧
    (∀ (m : TableModel) (rows : List Row) (i : Nat),
      (setRows m rows).columnWidths[i]? =
        (m.columns[i]?).map (fun col => specColumnWidth col rows)) := by
  have hfun : ∀ rows : List Row,
      (fun col => computeColumnWidth col rows) = (fun col => specColumnWidth col rows) :=
    fun rows => funext fun col => computeColumnWidth_eq col rows
  constructor
  · intro opts i
    rw [createTable_columnWidths, hfun, List.getElem?_map]
  · intro m rows i
    rw [setRows_columnWidths, hfun, List.getElem?_map]

lemma foldr_max_set_le (g : Row → Nat) :
    ∀ (rows : List Row) (j : Nat) (rj r' : Row), rows[j]? = some rj → g rj ≤ g r' →
    ((rows.map g).foldr max 0) ≤ (((rows.set j r').map g).foldr max 0) := by
  intro rows
  induction rows with
  | nil => intro j rj r' hj; simp at hj
  | cons a t ih =>
    intro j rj r' hj hle
    cases j with
    | zero =>
      simp only [List.getElem?_cons_zero, Option.some.injEq] at hj
      subst hj
      simp only [List.set_cons_zero, List.map_cons, List.foldr_cons]
      omega
    | succ k =>
      rw [List.getElem?_cons_succ] at hj
      have h1 := ih k rj r' hj hle
      simp only [List.set_cons_succ, List.map_cons, List.foldr_cons]
      omega

lemma specColumnWidth_mono (col : TableColumn) (rows : List Row) (j : Nat) (rj r' : Row)
    (hfix : truthyN col.width = false)
    (hj : rows[j]? = some rj)
    (hle : (formatCell col rj).length ≤ (formatCell col r').length) :
    specColumnWidth col rows ≤ specColumnWidth col (rows.set j r') := by
  unfold specColumnWidth
  rw [hfix]
  have h1 := foldr_max_set_le (fun row => (formatCell col row).length) rows j rj r' hj hle
  dsimp only
  split_ifs <;> omega

/-- C6 (confirmed): when column `i` has no fixed width, replacing one row's
cell by one whose formatted text is at least as long never decreases that
column's `columnWidths` entry after `setRows`. -/
theorem c6_width_monotone (m : TableModel) (rows : List Row) (j : Nat) (rj r' : Row)
    (i : Nat) (col : TableColumn)
    (hcol : m.columns[i]? = some col)
    (hfix : truthyN col.width = false)
    (hj : rows[j]? = some rj)
    (hle : (formatCell col rj).length ≤ (formatCell col r').length) :
    ∃ w wid, (setRows m rows).columnWidths[i]? = some w ∧
      (setRows m (rows.set j r')).columnWidths[i]? = some wid ∧ w ≤ wid := by
  refine ⟨computeColumnWidth col rows, computeColumnWidth col (rows.set j r'), ?_, ?_, ?_⟩
  · rw [setRows_columnWidths, List.getElem?_map, hcol]; rfl
  · rw [setRows_columnWidths, List.getElem?_map, hcol]; rfl
  · rw [computeColumnWidth_eq, computeColumnWidth_eq]
    exact specColumnWidth_mono col rows j rj r' hfix hj hle

/-- Unconstrained single column, for the C6 witness. -/
def c6col : TableColumn :=
  { key := "n", title := "N", width := Option.none, minWidth := Option.none,
    maxWidth := Option.none, align := Option.none, format := Option.none }

/-- A row whose `n` cell is the two-character string `ab`. -/
def c6row : Row := fun k => if k = "n" then some "ab" else Option.none

/-- A row whose every cell is the four-character string `abcd`. -/
def c6rowWide : Row := fun _ => some "abcd"

/-- Concrete one-column table for the C6 witness. -/
def c6table : TableModel := createTable { columns := [c6col], rows := some [c6row] }

/-- Witness for C6: widening the single cell from `ab` to `abcd` does not
shrink the computed width. -/
theorem c6_width_monotone_witness :
    ∃ w wid, (setRows c6table [c6row]).columnWidths[0]? = some w ∧
      (setRows c6table ([c6row].set 0 c6rowWide)).columnWidths[0]? = some wid ∧ w ≤ wid :=
  c6_width_monotone c6table [c6row] 0 c6row c6rowWide 0 c6col rfl (by decide) rfl (by decide)

/-- C8 (confirmed): `setRows` only changes `rows`, `columnWidths` and
`selected`; the `columns`, `border`, `showHeader`, `showHeaderSeparator`,
`padding`, `cursor` and `selectable` fields are returned unchanged. -/
theorem c8_setRows_frame (m : TableModel) (rows : List Row) :
    (setRows m rows).columns = m.columns ∧
    (setRows m rows).border = m.border ∧
    (setRows m rows).showHeader = m.showHeader ∧
    (setRows m rows).showHeaderSeparator = m.showHeaderSeparator ∧
    (setRows m rows).padding = m.padding ∧
    (setRows m rows).cursor = m.cursor ∧
    (setRows m rows).selectable = m.selectable :=
  ⟨rfl, rfl, rfl, rfl, rfl, rfl, rfl⟩

end WTable

namespace WTimer

/-- Timer mode. -/
inductive TimerMode
  | countdown
  | stopwatch
deriving DecidableEq

/-- Timer state. -/
inductive TimerState
  | idle
  | running
  | paused
  | finished
deriving DecidableEq

/-- Timer model, mirroring `TimerModel`; times are milliseconds. -/
structure TimerModel where
  mode : TimerMode
  duration : Int
  elapsed : Int
  state : TimerState
  startTime : Option Int
  pauseTime : Option Int
deriving DecidableEq

/-- Timer options, mirroring `TimerOptions`. -/
structure TimerOptions where
  mode : Option TimerMode := Option.none
  duration : Option Int := Option.none
  elapsed : Option Int := Option.none
  autoStart : Option Bool := Option.none

/-- Mirrors `start` of `timer.ts`; the `Date.now()` reading is the explicit
`now` argument. -/
def start (now : Int) (model : TimerModel) : TimerModel :=
  if model.state = .running then model
  else if model.state = .finished then model
  else { model with state := .running, startTime := some now, pauseTime := Option.none }

/-- Mirrors `createTimer` of `timer.ts`. -/
def createTimer (now : Int) (options : TimerOptions) : TimerModel :=
  let model : TimerModel :=
    { mode := options.mode.getD .stopwatch
      duration := options.duration.getD 0
      elapsed := options.elapsed.getD 0
      state := .idle
      startTime := Option.none
      pauseTime := Option.none }
  if options.autoStart.getD false then start now model else model

/-- Mirrors `createCountdown` of `timer.ts`. -/
def createCountdown (now : Int) (durationMs : Int) (autoStart : Bool) : TimerModel :=
  createTimer now
    { mode := some .countdown, duration := some durationMs, autoStart := some autoStart }

/-- Mirrors `pause` of `timer.ts`. -/
def pause (now : Int) (model : TimerModel) : TimerModel :=
  if model.state ≠ .running then model
  else
    let additionalElapsed := match model.startTime with | some t => now - t | Option.none => 0
    { model with
      state := .paused
      elapsed := model.elapsed + additionalElapsed
      startTime := Option.none
      pauseTime := some now }

/-- Mirrors `resume` of `timer.ts`. -/
def resume (now : Int) (model : TimerModel) : TimerModel :=
  if model.state ≠ .paused then model
  else { model with state := .running, startTime := some now, pauseTime := Option.none }

/-- Mirrors `toggle` of `timer.ts`. -/
def toggle (now : Int) (model : TimerModel) : TimerModel :=
  match model.state with
  | .idle => start now model
  | .running => pause now model
  | .paused => resume now model
  | .finished => model

/-- Mirrors `tick` of `timer.ts`. -/
def tick (now : Int) (model : TimerModel) : TimerModel :=
  if model.state ≠ .running then model
  else
    let totalElapsed :=
      model.elapsed + (match model.startTime with | some t => now - t | Option.none => 0)
    if model.mode = .countdown ∧ totalElapsed ≥ model.duration then
      { model with state := .finished, elapsed := model.duration, startTime := Option.none }
    else model

/-- C7 (confirmed): `start`, `tick` and `toggle` are no-ops on a finished
timer, and a countdown of 1000 ms started at `t0` and ticked at `t0 + 1000`
is finished with `elapsed` pinned to 1000, after which any further tick
leaves the model unchanged. -/
theorem c7_finished_idempotent :
    (∀ (now : Int) (m : TimerModel), m.state = .finished →
      start now m = m ∧ tick now m = m ∧ toggle now m = m) ∧
    (∀ t0 : Int,
      (tick (t0 + 1000) (start t0 (createCountdown t0 1000 false))).state = .finished ∧
      (tick (t0 + 1000) (start t0 (createCountdown t0 1000 false))).elapsed = 1000 ∧
      ∀ t : Int, tick t (tick (t0 + 1000) (start t0 (createCountdown t0 1000 false))) =
        tick (t0 + 1000) (start t0 (createCountdown t0 1000 false))) := by
  constructor
  · intro now m h
    refine ⟨?_, ?_, ?_⟩
    · unfold start
      rw [if_neg (by rw [h]; intro hc; exact absurd hc (by decide)), if_pos h]
    · unfold tick
      rw [if_pos (by rw [h]; intro hc; exact absurd hc (by decide))]
    · unfold toggle
      rw [h]
  · intro t0
    have hcd : createCountdown t0 1000 false =
        { mode := .countdown, duration := 1000, elapsed := 0, state := .idle,
          startTime := Option.none, pauseTime := Option.none } := rfl
    have hst : start t0 (createCountdown t0 1000 false) =
        { mode := .countdown, duration := 1000, elapsed := 0, state := .running,
          startTime := some t0, pauseTime := Option.none } := by
      rw [hcd]
      unfold start
      rw [if_neg (by intro hc; exact absurd hc (by decide)),
        if_neg (by intro hc; exact absurd hc (by decide))]
    have htk : tick (t0 + 1000) (start t0 (createCountdown t0 1000 false)) =
        { mode := .countdown, duration := 1000, elapsed := 1000, state := .finished,
          startTime := Option.none, pauseTime := Option.none } := by
      rw [hst]
      unfold tick
      rw [if_neg (by intro hc; exact absurd (hc rfl) (by simp))]
      dsimp only
      rw [if_pos (by constructor; rfl; omega)]
    refine ⟨by rw [htk], by rw [htk], fun t => ?_⟩
    rw [htk]
    unfold tick
    rw [if_pos (by intro hc; exact absurd hc (by decide))]

/-- A concrete finished timer, for the C7 witness. -/
def c7fin : TimerModel :=
  { mode := .countdown, duration := 1000, elapsed := 1000, state := .finished,
    startTime := Option.none, pauseTime := Option.none }

/-- Witness for C7: the theorem applied to a concrete finished timer and to
the concrete countdown scenario at `t0 = 0`. -/
theorem c7_finished_idempotent_witness :
    (start 5 c7fin = c7fin ∧ tick 5 c7fin = c7fin ∧ toggle 5 c7fin = c7fin) ∧
    (tick 1000 (start 0 (createCountdown 0 1000 false))).state = .finished :=
  ⟨c7_finished_idempotent.1 5 c7fin rfl, (c7_finished_idempotent.2 0).1⟩

end WTimer

namespace WTextInput

/-- Text input model, mirroring `TextInputModel`; the cursor is a character
index into `value`, and `mask = none` mirrors the `null` mask. -/
structure TextInputModel where
  value : String
  cursor : Nat
  placeholder : String
  maxLength : Nat
  mask : Option String
  showCharCount : Bool
  width : Nat
  prompt : String
  cursorChar : String
  focused : Bool

/-- JS `s.repeat(n)`. -/
def strRepeat (s : String) : Nat → String
  | 0 => ""
  | n + 1 => s ++ strRepeat s n

/-- JS `s.slice(a, b)` for non-negative bounds. -/
def jsSlice2 (s : String) (a b : Nat) : String := ((s.toList.drop a).take (b - a)).asString

/-- JS `s.slice(a)` for a non-negative bound. -/
def jsSliceFrom (s : String) (a : Nat) : String := (s.toList.drop a).asString

/-- JS `s.padEnd(w)` (spaces). -/
def jsPadEnd (s : String) (w : Nat) : String :=
  s ++ String.mk (List.replicate (w - s.length) ' ')

/-- Mirrors `view` of the text input source: mask substitution, placeholder
when empty and unfocused, cursor glyph insertion (the `model.mask ?` test is
JS truthiness, so an empty-string mask falls back to slicing), window
sliding/padding for a positive width, prompt prefix and optional character
count suffix. -/
def view (model : TextInputModel) : String :=
  let displayValue := model.value
  let displayValue :=
    match model.mask with
    | some mk => strRepeat mk model.value.length
    | Option.none => displayValue
  let displayValue :=
    if displayValue.length = 0 ∧ model.placeholder ≠ "" ∧ model.focused = false then
      model.placeholder
    else displayValue
  let displayValue :=
    if model.focused then
      let before :=
        match model.mask with
        | some mk => if mk = "" then jsSlice2 displayValue 0 model.cursor
          else strRepeat mk model.cursor
        | Option.none => jsSlice2 displayValue 0 model.cursor
      let after :=
        match model.mask with
        | some mk => if mk = "" then jsSliceFrom displayValue model.cursor
          else strRepeat mk (model.value.length - model.cursor)
        | Option.none => jsSliceFrom displayValue model.cursor
      before ++ model.cursorChar ++ after
    else displayValue
  let displayValue :=
    if model.width > 0 then
      if displayValue.length > model.width then
        let cursorInDisplay := model.cursor + (if model.focused then 1 else 0)
        if cursorInDisplay > model.width then
          let offset := cursorInDisplay - model.width
          jsSlice2 displayValue offset (offset + model.width)
        else jsSlice2 displayValue 0 model.width
      else jsPadEnd displayValue model.width
    else displayValue
  let result := model.prompt ++ displayValue
  if model.showCharCount ∧ model.maxLength > 0 then
    result ++ " " ++ toString model.value.length ++ "/" ++ toString model.maxLength
  else result

/-- C9 (confirmed): with a non-null mask, `view` depends on `value` only
through its length — two models identical except for equal-length values
render identically, so the raw characters never reach the masked view. -/
theorem c9_masked_view_length_only (m : TextInputModel) (v2 : String) (mk : String)
    (hmask : m.mask = some mk) (hlen : v2.length = m.value.length) :
    view { m with value := v2 } = view m := by
  unfold view
  simp only [hmask, hlen]

/-- Concrete masked input, for the C9 witness. -/
def c9m : TextInputModel :=
  { value := "ab", cursor := 2, placeholder := "type here", maxLength := 10,
    mask := some "•", showCharCount := true, width := 6, prompt := "> ",
    cursorChar := "|", focused := true }

/-- Witness for C9: replacing the secret `ab` by `xy` leaves the masked view
unchanged. -/
theorem c9_masked_view_length_only_witness :
    view { c9m with value := "xy" } = view c9m :=
  c9_masked_view_length_only c9m "xy" "•" rfl rfl

end WTextInput

end Widgets
